import Mathlib

/-!
Shallow embedding of the golden-fixture generator
(src/tools/generate_golden_cases.py) of AudioMetadataParser.

Python values reaching the normalization pipeline are modelled by explicit
capability records: the dynamic checks the source performs
(hasattr "imageformat", hasattr "text", isinstance checks, str(), float())
become fields and constructors.  Floating-point numbers are modelled as
finite rationals (IEEE doubles are exact rationals) together with the
string Python str() renders for them; NaN and the infinities are the
non-finite case (val = none).  The SHA-256 digest of the hashlib library
is an uninterpreted parameter (sha : List Nat → String): no claim depends
on concrete digest values.
-/

namespace AudioGolden

/-- A Python float as the generator observes it: `val = some q` when the
float is finite (with exact rational value q), `val = none` for NaN or an
infinity; `strForm` is the text Python str() produces for it. -/
structure PyFloat where
  val : Option ℚ
  strForm : String
deriving DecidableEq

/-- One element of a Python list/tuple tag value, classified exactly by the
isinstance checks of normalize_tag_value lines 161 and 171.  eBytes carries
the bytes together with their UTF-8-with-replacement decoding; constructors
that the source would stringify carry their str() form. -/
inductive PyElem where
  | eStr (s : String)
  | eBytes (b : List Nat) (decoded : String)
  | eByteArr (b : List Nat) (strForm : String)
  | eMemView (b : List Nat) (strForm : String)
  | eInt (n : Int)
  | eFloat (f : PyFloat)
  | eBool (b : Bool)
  | eOther (strForm : String)
deriving DecidableEq

/-- The concrete-type classification of a tag value, mirroring the
isinstance dispatch of normalize_tag_value: bytes, list/tuple, bool, int,
float, or none of these. -/
inductive PyData where
  | dBytes (b : List Nat)
  | dSeq (xs : List PyElem)
  | dBool (b : Bool)
  | dInt (n : Int)
  | dFloat (f : PyFloat)
  | dOther
deriving DecidableEq

/-- A Python tag value as normalize_tag_value inspects it.
imageAttr = some raw models hasattr(value, "imageformat") with
bytes(value) = raw.  textAttr = some conv models hasattr(value, "text");
conv = some texts is a successful [str(x) for x in value.text] and
conv = none a conversion that raised.  strForm is str(value). -/
structure PyVal where
  imageAttr : Option (List Nat)
  textAttr : Option (Option (List String))
  data : PyData
  strForm : String

/-- normalize_tag_value's result dictionaries: the Canonical Value shapes
of the fixture format (kind field plus per-kind payload). -/
inductive CanonVal where
  | text (xs : List String)
  | binary (size : Nat) (sha256 : String)
  | boolV (b : Bool)
  | intV (n : Int)
  | double (f : PyFloat)
deriving DecidableEq

/-- isinstance(x, (bytes, bytearray, memoryview)) for a sequence element
(line 161). -/
def isBytesLike : PyElem → Bool
  | .eBytes _ _ | .eByteArr _ _ | .eMemView _ _ => true
  | _ => false

/-- bytes(x) for a byte-like element (line 162); other elements never reach
this call and map to the empty byte string. -/
def elemBytes : PyElem → List Nat
  | .eBytes b _ => b
  | .eByteArr b _ => b
  | .eMemView b _ => b
  | _ => []

/-- isinstance(x, (str, bytes, int, float, bool)) for a sequence element
(line 171). -/
def isPrim : PyElem → Bool
  | .eStr _ | .eBytes _ _ | .eInt _ | .eFloat _ | .eBool _ => true
  | _ => false

/-- The per-element conversion of lines 173-177: bytes elements are decoded
as UTF-8 with replacement, all other elements go through str(). -/
def convertElem : PyElem → String
  | .eBytes _ decoded => decoded
  | .eStr s => s
  | .eInt n => toString n
  | .eFloat f => f.strForm
  | .eBool b => if b then "True" else "False"
  | .eByteArr _ s => s
  | .eMemView _ s => s
  | .eOther s => s

/-- The final fallback of normalize_tag_value (lines 190-194):
text = str(value); a non-empty string becomes a one-element text value,
an empty one yields absence. -/
def strFallback (v : PyVal) : Option CanonVal :=
  if v.strForm = "" then none else some (.text [v.strForm])

/-- normalize_tag_value (lines 133-194).  sha is the hex digest function
hashlib.sha256(...).hexdigest(). -/
def normalize_tag_value (sha : List Nat → String) (v : PyVal) : Option CanonVal :=
  match v.imageAttr with
  | some raw => some (.binary raw.length (sha raw))
  | none =>
  match v.textAttr with
  | some (some texts) => some (.text texts)
  | _ =>
  match v.data with
  | .dBytes b => some (.binary b.length (sha b))
  | .dSeq xs =>
    if !xs.isEmpty && xs.all isBytesLike then
      let joined := (xs.map elemBytes).flatten
      some (.binary joined.length (sha joined))
    else if xs.all isPrim then
      some (.text (xs.map convertElem))
    else
      strFallback v
  | .dBool b => some (.boolV b)
  | .dInt n => some (.intV n)
  | .dFloat f =>
    match f.val with
    | some _ => some (.double f)
    | none => strFallback v
  | .dOther => strFallback v

/-- Python str.startswith on character lists: does the first list begin
with the second? -/
def listStartsWith : List Char → List Char → Bool
  | _, [] => true
  | [], _ :: _ => false
  | k :: ks, p :: ps => k == p && listStartsWith ks ps

/-- One character of Python str.upper(), on the ASCII range the tag keys
use. -/
def upChar (c : Char) : Char :=
  if 97 ≤ c.toNat ∧ c.toNat ≤ 122 then Char.ofNat (c.toNat - 32) else c

/-- One character of Python str.lower(), on the ASCII range the file
extensions use. -/
def lowChar (c : Char) : Char :=
  if 65 ≤ c.toNat ∧ c.toNat ≤ 90 then Char.ofNat (c.toNat + 32) else c

/-- Python str.upper(). -/
def toUpperStr (s : String) : String := String.mk (s.data.map upChar)

/-- Python str.lower(). -/
def toLowerStr (s : String) : String := String.mk (s.data.map lowChar)

/-- Strict lexicographic comparison of character lists by code point, the
order Python sorted() uses on strings. -/
def charsLt : List Char → List Char → Bool
  | [], [] => false
  | [], _ :: _ => true
  | _ :: _, [] => false
  | a :: as, b :: bs => if a < b then true else if b < a then false else charsLt as bs

/-- Python string comparison a < b. -/
def pyStrLt (a b : String) : Bool := charsLt a.data b.data

/-- Index of the last occurrence of c in cs (Python str.rfind). -/
def rfindChar (cs : List Char) (c : Char) : Option Nat :=
  (cs.enum.filterMap fun p => if p.2 = c then some p.1 else none).getLast?

/-- os.path.splitext for POSIX paths: the extension starts at the last dot,
provided a non-dot character precedes it within the basename (leading dots
of the basename never begin an extension). -/
def splitext (p : String) : String × String :=
  let cs := p.data
  let fIdx := match rfindChar cs '/' with
    | some i => i + 1
    | none => 0
  match rfindChar cs '.' with
  | some sepIdx =>
    if fIdx < sepIdx then
      if ((cs.drop fIdx).take (sepIdx - fIdx)).any (fun ch => ch != '.') then
        (String.mk (cs.take sepIdx), String.mk (cs.drop sepIdx))
      else (p, "")
    else (p, "")
  | none => (p, "")

/-- Python str.lstrip(".") applied to an extension: drop leading dots. -/
def lstripDots (s : String) : String := String.mk (s.data.dropWhile fun ch => ch == '.')

/-- The extension dispatch chain of format_from_filename (lines 66-108),
operating on the lowered, dot-stripped extension. -/
def format_from_ext (ext : String) : String :=
  if ext == "mp3" then "mp3"
  else if ext == "flac" then "flac"
  else if ["m4a", "m4b", "m4p", "mp4", "3g2"].contains ext then
    (if ["m4a", "m4b", "m4p", "3g2"].contains ext then "m4a" else "mp4")
  else if ["wav", "wave"].contains ext then "wave"
  else if ["aif", "aiff", "aifc"].contains ext then "aiff"
  else if ["asf", "wma"].contains ext then "asf"
  else if ext == "apev2" then "apev2"
  else if ext == "mpc" then "musepack"
  else if ext == "wv" then "wavpack"
  else if ext == "tak" then "tak"
  else if ext == "dsf" then "dsf"
  else if ["dff", "dsdiff"].contains ext then "dsdiff"
  else if ext == "aac" then "aac"
  else if ext == "ac3" then "ac3"
  else if ext == "eac3" then "eac3"
  else if ["ogg", "oga", "opus", "spx", "oggtheora", "oggflac", "ogv"].contains ext then "ogg"
  else if ext == "tta" then "trueAudio"
  else if ["ofr", "ofs"].contains ext then "optimFrog"
  else if ["mid", "smf"].contains ext then "smf"
  else if ext == "ape" then "monkeysAudio"
  else if ext == "id3" then "id3"
  else "unknown"

/-- format_from_filename (lines 64-108): classify a filename by its
lowercased, dot-stripped extension. -/
def format_from_filename (name : String) : String :=
  format_from_ext (lstripDots (toLowerStr (splitext name).2))

/-- The canonical format identifiers the classifier can produce. -/
def canonicalFormats : List String :=
  ["mp3", "flac", "m4a", "mp4", "wave", "aiff", "asf", "apev2", "musepack",
   "wavpack", "tak", "dsf", "dsdiff", "aac", "ac3", "eac3", "ogg",
   "trueAudio", "optimFrog", "smf", "monkeysAudio", "id3", "unknown"]

/-- The value of one attribute of the decoder's info object, classified by
the isinstance checks of safe_number and collect_extensions: Python None, a
bool, an int, a float, or anything else.  For the last case strF is
str(value) and conv the result of float(value): some f when the conversion
succeeds with float f, none when it raises. -/
inductive AttrVal where
  | vNone
  | vBool (b : Bool)
  | vInt (n : Int)
  | vFloat (f : PyFloat)
  | vOther (strF : String) (conv : Option PyFloat)
deriving DecidableEq

/-- safe_number's possible non-None results: a bool passed through
unchanged, an int, or a float. -/
inductive SNResult where
  | boolR (b : Bool)
  | intR (n : Int)
  | floatR (f : PyFloat)
deriving DecidableEq

/-- Python int() applied to a finite float: truncation toward zero. -/
def truncQ (q : ℚ) : Int := if 0 ≤ q then ⌊q⌋ else ⌈q⌉

/-- The near-integer snapping tolerance 1e-9 of safe_number line 125. -/
def nearTol : ℚ := 1 / 1000000000

/-- safe_number (lines 111-130): None stays absent; bools are returned
unchanged; ints and finite floats are returned as themselves; non-finite
floats become absent; any other value is converted with float(), and a
finite conversion within 1e-9 of its truncation snaps to that integer,
otherwise the converted float is returned; failed or non-finite
conversions become absent. -/
def safe_number : AttrVal → Option SNResult
  | .vNone => none
  | .vBool b => some (.boolR b)
  | .vInt n => some (.intR n)
  | .vFloat f =>
    match f.val with
    | none => none
    | some _ => some (.floatR f)
  | .vOther _ none => none
  | .vOther _ (some f) =>
    match f.val with
    | none => none
    | some q =>
      if |q - (truncQ q : ℚ)| < nearTol then some (.intR (truncQ q))
      else some (.floatR f)

/-- The tags container of a decoded file.  items = some conv models
hasattr(source, "items"); conv = some xs is a successful
list(source.items()) whose keys are given by their str() forms, conv = none
an enumeration that raised (collect_tags then keeps items = []). -/
structure TagSource where
  items : Option (Option (List (String × PyVal)))

/-- The info object of a decoded file: attrs name = none models a missing
attribute (hasattr false, getattr default None), some v the attribute's
value. -/
structure InfoObj where
  attrs : String → Option AttrVal

/-- A decoded file as mutagen returns it: optional tags container and
optional info object (getattr(audio, "tags"/"info", None)). -/
structure Audio where
  tags : Option TagSource
  info : Option InfoObj

/-- The wanted_prefixes tuple of collect_tags (lines 199-202).  The Python
literal for the seventh entry is a backslash followed by the three
characters xa9, not the single character U+00A9. -/
def wantedStarts : List String :=
  ["T", "TITLE", "ARTIST", "ALBUM", "GENRE", "COMMENT",
   "\\xa9", "covr", "trkn", "disk", "tmpo", "cpil", "purl"]

/-- The exact-match allow-list applied to the uppercased key
(line 221). -/
def commonNames : List String := ["TITLE", "ARTIST", "ALBUM", "GENRE", "COMMENT"]

/-- The key filter of collect_tags lines 219-222: keep a key when it starts
with one of the wanted starts, or when its uppercase form is one of the
five common names. -/
def keyFilterPass (k : String) : Bool :=
  wantedStarts.any (fun p => listStartsWith k.data p.data) ||
    commonNames.contains (toUpperStr k)

/-- Python dict assignment d[k] = v on an insertion-ordered dictionary:
overwrite in place when the key is present, append otherwise.  The
dictionaries the generator builds never hold a key twice, so replacing the
first occurrence is the Python behavior. -/
def dictInsert : List (String × CanonVal) → String → CanonVal → List (String × CanonVal)
  | [], k, v => [(k, v)]
  | p :: t, k, v => if p.1 = k then (k, v) :: t else p :: dictInsert t k v

/-- Python dict lookup d[k] on an insertion-ordered dictionary (None when
the key is absent). -/
def findVal : List (String × CanonVal) → String → Option CanonVal
  | [], _ => none
  | p :: t, k => if p.1 = k then some p.2 else findVal t k

/-- The loop body of collect_tags (lines 215-225): skip empty keys, apply
the key filter, normalize, and store only a produced value (the returned
dictionaries are non-empty, so Python truthiness coincides with
presence). -/
def tagStep (sha : List Nat → String) (acc : List (String × CanonVal))
    (kv : String × PyVal) : List (String × CanonVal) :=
  if kv.1 = "" then acc
  else if keyFilterPass kv.1 then
    match normalize_tag_value sha kv.2 with
    | some cv => dictInsert acc kv.1 cv
    | none => acc
  else acc

/-- collect_tags (lines 197-227): no tags container yields an empty
mapping; otherwise the first 120 enumerated entries (items[:120]) are run
through the key filter and the Value Normalizer. -/
def collect_tags (sha : List Nat → String) (audio : Audio) :
    List (String × CanonVal) :=
  match audio.tags with
  | none => []
  | some source =>
    let items := match source.items with
      | some (some xs) => xs
      | _ => []
    (items.take 120).foldl (tagStep sha) []

/-- The fixed attribute allow-list of collect_extensions (lines 236-240). -/
def extAttrs : List String :=
  ["version", "layer", "bitrate_mode", "encoder_info", "codec",
   "codec_name", "codec_description", "track_gain", "track_peak",
   "album_gain", "album_peak", "title_gain", "title_peak"]

/-- The per-attribute normalization of collect_extensions lines 244-252:
None is skipped; ints and bools are stored under the int kind via int();
finite floats under the double kind; non-finite floats are skipped; any
other value becomes a one-element text via str(). -/
def extNormalize : AttrVal → Option CanonVal
  | .vNone => none
  | .vBool b => some (.intV (if b then 1 else 0))
  | .vInt n => some (.intV n)
  | .vFloat f =>
    match f.val with
    | some _ => some (.double f)
    | none => none
  | .vOther strF _ => some (.text [strF])

/-- The loop body of collect_extensions (lines 241-252): a missing
attribute is skipped, otherwise the normalized value (when any) is stored
under the attribute name. -/
def extStep (info : InfoObj) (acc : List (String × CanonVal)) (name : String) :
    List (String × CanonVal) :=
  match info.attrs name with
  | none => acc
  | some v =>
    match extNormalize v with
    | some cv => dictInsert acc name cv
    | none => acc

/-- collect_extensions (lines 230-254): empty when the file exposes no info
object, otherwise the fold of extStep over the fixed attribute list. -/
def collect_extensions (audio : Audio) : List (String × CanonVal) :=
  match audio.info with
  | none => []
  | some info => extAttrs.foldl (extStep info) []

/-- The expectedError record: error code and message. -/
structure CaseError where
  code : String
  message : String
deriving DecidableEq

/-- expectedCoreInfo: the five optional numeric fields of a case. -/
structure CoreInfo where
  length : Option SNResult
  bitrate : Option SNResult
  sampleRate : Option SNResult
  channels : Option SNResult
  bitsPerSample : Option SNResult
deriving DecidableEq

/-- One fixture case as build_case assembles it. -/
structure Case where
  caseId : String
  sourcePythonTest : List String
  inputFile : String
  expectedFormat : String
  expectedCoreInfo : CoreInfo
  expectedTags : List (String × CanonVal)
  expectedExtensions : List (String × CanonVal)
  expectedError : Option CaseError
deriving DecidableEq

/-- What the call mutagen.File(abs_path) did: raised an exception with the
given str() text, returned None, or returned a decoded file. -/
inductive DecodeOutcome where
  | raised (msg : String)
  | noResult
  | ok (audio : Audio)

/-- Insertion into an ascending list, for modelling Python sorted(). -/
def insertSorted (s : String) : List String → List String
  | [] => [s]
  | x :: xs => if pyStrLt x s then x :: insertSorted s xs else s :: x :: xs

/-- Python sorted(set(xs)): the distinct elements in ascending order. -/
def sortedDedup (xs : List String) : List String := xs.dedup.foldr insertSorted []

/-- The all-absent expectedCoreInfo default of build_case lines 264-270. -/
def emptyCore : CoreInfo := ⟨none, none, none, none, none⟩

/-- getattr(info, name, None). -/
def getattrD (info : InfoObj) (name : String) : AttrVal :=
  (info.attrs name).getD .vNone

/-- build_case (lines 257-302), taking the decoder's outcome for the file
as an explicit argument.  A raised decode error records invalidHeader with
the error's text; a None result records unsupportedFormat with the literal
message "mutagen returned None"; a decoded file fills the core info (when
an info object exists) and runs the two collectors. -/
def build_case (sha : List Nat → String) (filename : String)
    (source_tests : List String) (outcome : DecodeOutcome) : Case :=
  let base : Case := {
    caseId := (splitext filename).1
    sourcePythonTest := sortedDedup source_tests
    inputFile := filename
    expectedFormat := format_from_filename filename
    expectedCoreInfo := emptyCore
    expectedTags := []
    expectedExtensions := []
    expectedError := none }
  match outcome with
  | .raised msg => { base with expectedError := some ⟨"invalidHeader", msg⟩ }
  | .noResult =>
    { base with expectedError := some ⟨"unsupportedFormat", "mutagen returned None"⟩ }
  | .ok audio =>
    let core : CoreInfo := match audio.info with
      | none => emptyCore
      | some info =>
        { length := safe_number (getattrD info "length")
          bitrate := safe_number (getattrD info "bitrate")
          sampleRate := safe_number (getattrD info "sample_rate")
          channels := safe_number (getattrD info "channels")
          bitsPerSample := safe_number (getattrD info "bits_per_sample") }
    { base with
      expectedCoreInfo := core
      expectedTags := collect_tags sha audio
      expectedExtensions := collect_extensions audio }

/-- The storing step shared by the collector variants: normalize the value
and insert it when normalization produced one. -/
def normStep (sha : List Nat → String) (acc : List (String × CanonVal))
    (kv : String × PyVal) : List (String × CanonVal) :=
  match normalize_tag_value sha kv.2 with
  | some cv => dictInsert acc kv.1 cv
  | none => acc

/-- The retention test of one enumerated tag entry: non-empty key that
passes the key filter. -/
def entryPass (kv : String × PyVal) : Bool := !(kv.1 == "") && keyFilterPass kv.1

/-- The Tag Collector as claim C2 describes it: the key filter is applied
to all enumerated entries first, and the 120-entry cap counts only entries
that passed the filter.  Written from the claim's words, for comparison
with collect_tags, which follows the source. -/
def collect_tags_claimed (sha : List Nat → String) (audio : Audio) :
    List (String × CanonVal) :=
  match audio.tags with
  | none => []
  | some source =>
    let items := match source.items with
      | some (some xs) => xs
      | _ => []
    ((items.filter entryPass).take 120).foldl (normStep sha) []

/-- A fixed digest function used when instantiating theorems on concrete
inputs; every theorem about the normalizer holds for all digest
functions. -/
def anyHash : List Nat → String := fun _ => ""

/-- The float NaN: non-finite, str() form "nan". -/
def nanFloat : PyFloat := ⟨none, "nan"⟩

/-- A plain Python float NaN as a tag value: no imageformat attribute, no
text attribute, str() form "nan". -/
def nanVal : PyVal := ⟨none, none, .dFloat nanFloat, "nan"⟩

/-- The finite float 1.0. -/
def oneFloat : PyFloat := ⟨some 1, "1.0"⟩

/-- The float 1.0 as a plain tag value. -/
def oneVal : PyVal := ⟨none, none, .dFloat oneFloat, "1.0"⟩

/-- The finite float 2.0. -/
def twoFloat : PyFloat := ⟨some 2, "2.0"⟩

/-- The Python int 1 as a tag value. -/
def c2Val : PyVal := ⟨none, none, .dInt 1, "1"⟩

/-- 121 tag entries: a first key "zzz" that fails the key filter, then 120
keys T0..T119 that pass it, all with normalizable values. -/
def c2Items : List (String × PyVal) :=
  ("zzz", c2Val) :: (List.range 120).map (fun i => ("T" ++ toString i, c2Val))

/-- A decoded file whose tags container enumerates the 121 entries of
c2Items. -/
def c2Audio : Audio := ⟨some ⟨some (some c2Items)⟩, none⟩

/-- A tag value whose text attribute raises on conversion and which is an
int underneath. -/
def c6Val : PyVal := ⟨none, some none, .dInt 7, "7"⟩

/-- An info object exposing exactly the attribute layer, with value
True. -/
def c7Info : InfoObj := ⟨fun n => if n = "layer" then some (.vBool true) else none⟩

/-- A decoded file with neither tags nor info. -/
def c8Audio : Audio := ⟨none, none⟩

/-- A tag value matched by no isinstance check. -/
def c8Val : PyVal := ⟨none, none, .dOther, "x"⟩

/- ------------------------------------------------------------------ -/
/- Helper lemmas about dictInsert and the collector folds.            -/
/- ------------------------------------------------------------------ -/

theorem length_dictInsert : ∀ (d : List (String × CanonVal)) (k : String) (v : CanonVal),
    (dictInsert d k v).length ≤ d.length + 1
  | [], _, _ => by simp [dictInsert]
  | p :: t, k, v => by
    by_cases hp : p.1 = k
    · simp [dictInsert, hp]
    · have := length_dictInsert t k v
      simp only [dictInsert, if_neg hp, List.length_cons]
      omega

theorem length_tagStep (sha : List Nat → String) (acc : List (String × CanonVal))
    (kv : String × PyVal) : (tagStep sha acc kv).length ≤ acc.length + 1 := by
  unfold tagStep
  split
  · omega
  · split
    · split
      · exact length_dictInsert _ _ _
      · omega
    · omega

theorem length_foldl_tagStep (sha : List Nat → String) :
    ∀ (l : List (String × PyVal)) (acc : List (String × CanonVal)),
      (l.foldl (tagStep sha) acc).length ≤ acc.length + l.length
  | [], acc => by simp
  | kv :: t, acc => by
    have h2 := length_foldl_tagStep sha t (tagStep sha acc kv)
    have h1 := length_tagStep sha acc kv
    simp only [List.foldl_cons, List.length_cons]
    omega

theorem tagStep_eq (sha : List Nat → String) (acc : List (String × CanonVal))
    (kv : String × PyVal) :
    tagStep sha acc kv = if entryPass kv then normStep sha acc kv else acc := by
  unfold tagStep entryPass normStep
  by_cases h1 : kv.1 = ""
  · simp [h1]
  · by_cases h2 : keyFilterPass kv.1 = true
    · simp [h1, h2]
    · simp [h1, h2]

theorem foldl_tagStep_filter (sha : List Nat → String) :
    ∀ (l : List (String × PyVal)) (acc : List (String × CanonVal)),
      l.foldl (tagStep sha) acc = (l.filter entryPass).foldl (normStep sha) acc
  | [], _ => rfl
  | kv :: t, acc => by
    rw [List.foldl_cons, tagStep_eq, List.filter_cons]
    by_cases h : entryPass kv = true
    · rw [if_pos h, if_pos h, List.foldl_cons]
      exact foldl_tagStep_filter sha t _
    · rw [if_neg h, if_neg h]
      exact foldl_tagStep_filter sha t _

theorem findVal_dictInsert_self : ∀ (d : List (String × CanonVal)) (k : String) (v : CanonVal),
    findVal (dictInsert d k v) k = some v
  | [], k, v => by simp [dictInsert, findVal]
  | p :: t, k, v => by
    by_cases hp : p.1 = k
    · simp [dictInsert, findVal, hp]
    · simp [dictInsert, findVal, hp, findVal_dictInsert_self t k v]

theorem findVal_dictInsert_ne :
    ∀ (d : List (String × CanonVal)) (k q : String) (v : CanonVal), q ≠ k →
      findVal (dictInsert d k v) q = findVal d q
  | [], k, q, v, hq => by
    have hk : ¬ k = q := fun e => hq e.symm
    simp [dictInsert, findVal, hk]
  | p :: t, k, q, v, hq => by
    by_cases hp : p.1 = k
    · have hk : ¬ k = q := fun e => hq e.symm
      have hp2 : ¬ p.1 = q := fun e => hq (hp ▸ e).symm
      simp [dictInsert, findVal, hp, hk, hp2]
    · simp [dictInsert, findVal, hp, findVal_dictInsert_ne t k q v hq]

theorem findVal_extStep_ne (info : InfoObj) (acc : List (String × CanonVal))
    (n q : String) (hq : q ≠ n) :
    findVal (extStep info acc n) q = findVal acc q := by
  unfold extStep
  cases hv : info.attrs n with
  | none => rfl
  | some v =>
    cases hcv : extNormalize v with
    | none => simp [hcv]
    | some cv =>
      simp only [hcv]
      exact findVal_dictInsert_ne acc n q cv hq

theorem findVal_extFold_not_mem (info : InfoObj) :
    ∀ (names : List String) (acc : List (String × CanonVal)) (q : String),
      q ∉ names →
      findVal (names.foldl (extStep info) acc) q = findVal acc q
  | [], _, _, _ => rfl
  | n :: t, acc, q, h => by
    have hqn : q ≠ n := fun e => h (e ▸ List.mem_cons_self n t)
    have ht : q ∉ t := fun m => h (List.mem_cons_of_mem n m)
    rw [List.foldl_cons, findVal_extFold_not_mem info t _ q ht,
      findVal_extStep_ne info acc n q hqn]

theorem findVal_extFold (info : InfoObj) :
    ∀ (names : List String) (acc : List (String × CanonVal)) (q : String),
      q ∈ names → names.Nodup →
      ((info.attrs q).bind extNormalize = none →
          findVal (names.foldl (extStep info) acc) q = findVal acc q) ∧
      (∀ cv, (info.attrs q).bind extNormalize = some cv →
          findVal (names.foldl (extStep info) acc) q = some cv)
  | [], _, q, hmem, _ => absurd hmem (List.not_mem_nil q)
  | n :: t, acc, q, hmem, hnd => by
    rw [List.foldl_cons]
    have hnd1 := (List.nodup_cons.mp hnd).1
    have hnd2 := (List.nodup_cons.mp hnd).2
    rcases List.mem_cons.mp hmem with he | ht
    · subst he
      constructor
      · intro hb
        rw [findVal_extFold_not_mem info t _ q hnd1]
        unfold extStep
        cases hv : info.attrs q with
        | none => rfl
        | some v =>
          rw [hv] at hb
          simp only [Option.some_bind] at hb
          simp [hb]
      · intro cv hb
        rw [findVal_extFold_not_mem info t _ q hnd1]
        unfold extStep
        cases hv : info.attrs q with
        | none => rw [hv] at hb; simp at hb
        | some v =>
          rw [hv] at hb
          simp only [Option.some_bind] at hb
          simp only [hb]
          exact findVal_dictInsert_self acc q cv
    · have hqn : q ≠ n := fun e => hnd1 (e ▸ ht)
      have ih := findVal_extFold info t (extStep info acc n) q ht hnd2
      constructor
      · intro hb
        rw [ih.1 hb, findVal_extStep_ne info acc n q hqn]
      · intro cv hb
        exact ih.2 cv hb

theorem strFallback_ne_double (v : PyVal) (g : PyFloat) :
    strFallback v ≠ some (.double g) := by
  unfold strFallback
  split
  · simp
  · simp

theorem ite_mem {c : Prop} [Decidable c] {a b : String} {l : List String}
    (ha : a ∈ l) (hb : b ∈ l) : (if c then a else b) ∈ l := by
  split
  · exact ha
  · exact hb

/- ------------------------------------------------------------------ -/
/- Claim theorems.                                                    -/
/- ------------------------------------------------------------------ -/

/-- C1 (counterexample): the Value Normalizer does not yield absence on
the non-finite float NaN; it returns the text value ["nan"], because a
non-finite float falls through to the string fallback and str(nan) is the
non-empty string "nan". -/
theorem C1_counterexample :
    normalize_tag_value anyHash nanVal = some (.text ["nan"]) ∧
    normalize_tag_value anyHash nanVal ≠ none :=
  ⟨rfl, by decide⟩

/-- C1 (amended): a plain non-finite float input (no image or text-list
capability) is not dropped by normalize_tag_value but handed to the string
fallback, producing a one-element text of its str() form (non-empty for
nan/inf); and a Canonical Value of kind double produced by
normalize_tag_value always holds a finite float. -/
theorem C1_nonfinite_float_fallback :
    (∀ (sha : List Nat → String) (v : PyVal) (f : PyFloat),
        v.imageAttr = none → v.textAttr = none → v.data = .dFloat f →
        f.val = none → normalize_tag_value sha v = strFallback v) ∧
    (∀ (sha : List Nat → String) (v : PyVal) (g : PyFloat),
        normalize_tag_value sha v = some (.double g) → g.val.isSome) := by
  constructor
  · intro sha v f him htx hd hf
    rcases v with ⟨im, tx, dt, sf⟩
    dsimp only at him htx hd
    subst him; subst htx; subst hd
    show (match f.val with
      | some _ => some (CanonVal.double f)
      | none => strFallback ⟨none, none, .dFloat f, sf⟩) =
        strFallback ⟨none, none, .dFloat f, sf⟩
    rw [hf]
  · intro sha v g h
    rcases v with ⟨im, tx, dt, sf⟩
    unfold normalize_tag_value at h
    dsimp only at h
    split at h
    · simp at h
    · split at h
      · simp at h
      · split at h
        · simp at h
        · split at h
          · simp at h
          · split at h
            · simp at h
            · exact absurd h (strFallback_ne_double _ g)
        · simp at h
        · simp at h
        · next f =>
          split at h
          · next q hv =>
            simp only [Option.some.injEq, CanonVal.double.injEq] at h
            subst h
            simp [hv]
          · exact absurd h (strFallback_ne_double _ g)
        · exact absurd h (strFallback_ne_double _ g)

/-- C1 (witness): the amended statement instantiated at NaN (first part)
and at the finite float 1.0 (second part). -/
theorem C1_witness :
    normalize_tag_value anyHash nanVal = strFallback nanVal ∧ oneFloat.val.isSome :=
  ⟨C1_nonfinite_float_fallback.1 anyHash nanVal nanFloat rfl rfl rfl rfl,
   C1_nonfinite_float_fallback.2 anyHash oneVal oneFloat rfl⟩

set_option maxRecDepth 100000 in
/-- C2 (counterexample): on a container of 121 entries whose first entry
fails the key filter and whose remaining 120 pass it, collect_tags keeps
only 119 entries (the cap is applied before the filter), while the
claim's filter-before-cap reading keeps 120; the two disagree. -/
theorem C2_counterexample :
    (collect_tags anyHash c2Audio).length = 119 ∧
    (collect_tags_claimed anyHash c2Audio).length = 120 ∧
    collect_tags anyHash c2Audio ≠ collect_tags_claimed anyHash c2Audio := by
  refine ⟨by decide, by decide, ?_⟩
  intro h
  have := congrArg List.length h
  rw [show (collect_tags anyHash c2Audio).length = 119 from by decide,
    show (collect_tags_claimed anyHash c2Audio).length = 120 from by decide] at this
  exact absurd this (by decide)

/-- C2 (amended): for a container enumerating more than 120 entries,
expectedTags has at most 120 entries, and the retained entries are exactly
those among the FIRST 120 ENUMERATED entries that pass the key filter
(the truncation items[:120] happens before the filter), i.e. collect_tags
agrees with the filter-then-cap reading applied to the truncated
enumeration. -/
theorem C2_cap_before_filter (sha : List Nat → String) (xs : List (String × PyVal))
    (info : Option InfoObj) (hcount : 120 < xs.length) :
    (collect_tags sha ⟨some ⟨some (some xs)⟩, info⟩).length ≤ 120 ∧
    collect_tags sha ⟨some ⟨some (some xs)⟩, info⟩ =
      collect_tags_claimed sha ⟨some ⟨some (some (xs.take 120))⟩, info⟩ := by
  constructor
  · show ((xs.take 120).foldl (tagStep sha) []).length ≤ 120
    have h1 := length_foldl_tagStep sha (xs.take 120) []
    have h2 := List.length_take_le 120 xs
    simp only [List.length_nil, Nat.zero_add] at h1
    omega
  · show (xs.take 120).foldl (tagStep sha) [] =
      (((xs.take 120).filter entryPass).take 120).foldl (normStep sha) []
    rw [foldl_tagStep_filter]
    have hlen : ((xs.take 120).filter entryPass).length ≤ 120 :=
      le_trans (List.length_filter_le _ _) (List.length_take_le _ _)
    rw [List.take_of_length_le hlen]

set_option maxRecDepth 100000 in
/-- C2 (witness): the amended statement instantiated at the concrete
121-entry container. -/
theorem C2_witness :
    (collect_tags anyHash ⟨some ⟨some (some c2Items)⟩, none⟩).length ≤ 120 ∧
    collect_tags anyHash ⟨some ⟨some (some c2Items)⟩, none⟩ =
      collect_tags_claimed anyHash ⟨some ⟨some (some (c2Items.take 120))⟩, none⟩ :=
  C2_cap_before_filter anyHash c2Items none (by decide)

/-- C3 (counterexample): when the decoder returns its None sentinel, the
recorded message is not "no result". -/
theorem C3_counterexample :
    (build_case anyHash "junk.mp3" [] .noResult).expectedError ≠
      some ⟨"unsupportedFormat", "no result"⟩ := by
  decide

/-- C3 (amended): for every file on which the decoder returns None without
raising, build_case records expectedError with code "unsupportedFormat"
and message "mutagen returned None". -/
theorem C3_noresult_error (sha : List Nat → String) (filename : String)
    (sts : List String) :
    (build_case sha filename sts .noResult).expectedError =
      some ⟨"unsupportedFormat", "mutagen returned None"⟩ :=
  rfl

/-- C4: whenever expectedError is non-null, expectedTags and
expectedExtensions are empty and all five expectedCoreInfo fields are
null. -/
theorem C4_error_exclusivity (sha : List Nat → String) (filename : String)
    (sts : List String) (outcome : DecodeOutcome)
    (h : (build_case sha filename sts outcome).expectedError ≠ none) :
    (build_case sha filename sts outcome).expectedTags = [] ∧
    (build_case sha filename sts outcome).expectedExtensions = [] ∧
    (build_case sha filename sts outcome).expectedCoreInfo.length = none ∧
    (build_case sha filename sts outcome).expectedCoreInfo.bitrate = none ∧
    (build_case sha filename sts outcome).expectedCoreInfo.sampleRate = none ∧
    (build_case sha filename sts outcome).expectedCoreInfo.channels = none ∧
    (build_case sha filename sts outcome).expectedCoreInfo.bitsPerSample = none := by
  cases outcome with
  | raised msg => exact ⟨rfl, rfl, rfl, rfl, rfl, rfl, rfl⟩
  | noResult => exact ⟨rfl, rfl, rfl, rfl, rfl, rfl, rfl⟩
  | ok audio => exact absurd rfl h

/-- C4 (witness): the exclusivity instantiated on a raising decode. -/
theorem C4_witness :
    (build_case anyHash "x.mp3" [] (.raised "boom")).expectedTags = [] ∧
    (build_case anyHash "x.mp3" [] (.raised "boom")).expectedExtensions = [] ∧
    (build_case anyHash "x.mp3" [] (.raised "boom")).expectedCoreInfo.length = none ∧
    (build_case anyHash "x.mp3" [] (.raised "boom")).expectedCoreInfo.bitrate = none ∧
    (build_case anyHash "x.mp3" [] (.raised "boom")).expectedCoreInfo.sampleRate = none ∧
    (build_case anyHash "x.mp3" [] (.raised "boom")).expectedCoreInfo.channels = none ∧
    (build_case anyHash "x.mp3" [] (.raised "boom")).expectedCoreInfo.bitsPerSample = none :=
  C4_error_exclusivity anyHash "x.mp3" [] (.raised "boom") (by decide)

/-- C5: the Format Classifier is total — every filename maps to exactly one
of the canonical format identifiers, never failing — and the claim's
examples hold: extension m4b classifies as m4a, drums.mid as smf, an
unrecognized extension xyz as unknown. -/
theorem C5_format_classifier_total :
    (∀ name : String, format_from_filename name ∈ canonicalFormats) ∧
    format_from_filename "x.m4b" = "m4a" ∧
    format_from_filename "drums.mid" = "smf" ∧
    format_from_filename "song.xyz" = "unknown" := by
  refine ⟨fun name => ?_, by decide, by decide, by decide⟩
  unfold format_from_filename format_from_ext
  exact ite_mem (by decide) (ite_mem (by decide) (ite_mem
    (ite_mem (by decide) (by decide)) (ite_mem (by decide) (ite_mem (by decide)
    (ite_mem (by decide) (ite_mem (by decide) (ite_mem (by decide) (ite_mem (by decide)
    (ite_mem (by decide) (ite_mem (by decide) (ite_mem (by decide) (ite_mem (by decide)
    (ite_mem (by decide) (ite_mem (by decide) (ite_mem (by decide) (ite_mem (by decide)
    (ite_mem (by decide) (ite_mem (by decide) (ite_mem (by decide) (ite_mem (by decide)
    (by decide)))))))))))))))))))))

/-- C6: a value exposing a text-list capability whose string conversion
raises is not an error: normalize_tag_value continues with the later
dispatch rules exactly as if the capability were absent. -/
theorem C6_textlist_fallthrough (sha : List Nat → String) (v : PyVal)
    (h : v.textAttr = some none) :
    normalize_tag_value sha v = normalize_tag_value sha { v with textAttr := none } := by
  rcases v with ⟨im, tx, dt, sf⟩
  dsimp only at h
  subst h
  cases im <;> rfl

/-- C6 (witness): the fall-through instantiated on an int value with a
raising text attribute. -/
theorem C6_witness :
    normalize_tag_value anyHash c6Val =
      normalize_tag_value anyHash { c6Val with textAttr := none } :=
  C6_textlist_fallthrough anyHash c6Val rfl

/-- C7: for every attribute of the fixed allow-list, the Extension-Info
Collector's stored value for it is exactly the normalization of the
attribute's value, where bools and ints are stored under the int kind
(True as 1, False as 0), finite floats under the double kind, non-finite
floats are omitted, and anything else becomes a single-element text of its
str() form. -/
theorem C7_extension_normalization (t : Option TagSource) (info : InfoObj)
    (name : String) (hmem : name ∈ extAttrs) :
    findVal (collect_extensions ⟨t, some info⟩) name =
      (info.attrs name).bind extNormalize ∧
    (∀ b, extNormalize (.vBool b) = some (.intV (if b then 1 else 0))) ∧
    (∀ n, extNormalize (.vInt n) = some (.intV n)) ∧
    (∀ f q, f.val = some q → extNormalize (.vFloat f) = some (.double f)) ∧
    (∀ f, f.val = none → extNormalize (.vFloat f) = none) ∧
    (∀ s c, extNormalize (.vOther s c) = some (.text [s])) := by
  have hnd : extAttrs.Nodup := by decide
  have hmain := findVal_extFold info extAttrs [] name hmem hnd
  refine ⟨?_, fun b => rfl, fun n => rfl, ?_, ?_, fun s c => rfl⟩
  · show findVal (extAttrs.foldl (extStep info) []) name = _
    cases hb : (info.attrs name).bind extNormalize with
    | none => rw [hmain.1 hb]; rfl
    | some cv => exact hmain.2 cv hb
  · intro f q hf
    simp only [extNormalize]
    rw [hf]
  · intro f hf
    simp only [extNormalize]
    rw [hf]

/-- C7 (witness): the collector equation instantiated at the attribute
layer holding the boolean True. -/
theorem C7_witness :
    findVal (collect_extensions ⟨none, some c7Info⟩) "layer" =
      (c7Info.attrs "layer").bind extNormalize :=
  (C7_extension_normalization none c7Info "layer" (by decide)).1

/-- C8: the normalization pipeline is deterministic — on equal inputs,
build_case, collect_tags, collect_extensions and normalize_tag_value
return equal results. -/
theorem C8_determinism (sha : List Nat → String) (fn fn2 : String)
    (sts sts2 : List String) (o o2 : DecodeOutcome) (a a2 : Audio) (v v2 : PyVal)
    (h1 : fn = fn2) (h2 : sts = sts2) (h3 : o = o2) (h4 : a = a2) (h5 : v = v2) :
    build_case sha fn sts o = build_case sha fn2 sts2 o2 ∧
    collect_tags sha a = collect_tags sha a2 ∧
    collect_extensions a = collect_extensions a2 ∧
    normalize_tag_value sha v = normalize_tag_value sha v2 := by
  subst h1; subst h2; subst h3; subst h4; subst h5
  exact ⟨rfl, rfl, rfl, rfl⟩

/-- C8 (witness): determinism instantiated at concrete inputs. -/
theorem C8_witness :
    build_case anyHash "a.mp3" [] .noResult = build_case anyHash "a.mp3" [] .noResult ∧
    collect_tags anyHash c8Audio = collect_tags anyHash c8Audio ∧
    collect_extensions c8Audio = collect_extensions c8Audio ∧
    normalize_tag_value anyHash c8Val = normalize_tag_value anyHash c8Val :=
  C8_determinism anyHash "a.mp3" "a.mp3" [] [] .noResult .noResult c8Audio c8Audio
    c8Val c8Val rfl rfl rfl rfl rfl

/-- C9: an empty list or tuple value (no image or text capability)
normalizes to the text kind with an empty string sequence — not absence
and not binary: the all-bytes rule demands a non-empty sequence while the
all-primitives rule holds vacuously. -/
theorem C9_empty_sequence_text (sha : List Nat → String) (sf : String) :
    normalize_tag_value sha ⟨none, none, .dSeq [], sf⟩ = some (.text []) :=
  rfl

/-- C10: safe_number returns a boolean unchanged; a finite float input is
returned as that float with no near-integer snapping; the snapping to
int(v) under |v - int(v)| < 1e-9 applies exactly to values that are
neither None, bool, int nor float and convert finitely via float(); and
build_case fills each of the five expectedCoreInfo fields with
safe_number of the corresponding info attribute, so any of them can hold
a boolean. -/
theorem C10_safe_number_dispatch :
    (∀ b, safe_number (.vBool b) = some (.boolR b)) ∧
    (∀ (f : PyFloat) (q : ℚ), f.val = some q →
        safe_number (.vFloat f) = some (.floatR f)) ∧
    (∀ (s : String) (f : PyFloat) (q : ℚ), f.val = some q →
        |q - (truncQ q : ℚ)| < nearTol →
        safe_number (.vOther s (some f)) = some (.intR (truncQ q))) ∧
    (∀ (s : String) (f : PyFloat) (q : ℚ), f.val = some q →
        ¬ |q - (truncQ q : ℚ)| < nearTol →
        safe_number (.vOther s (some f)) = some (.floatR f)) ∧
    (∀ (sha : List Nat → String) (fn : String) (sts : List String)
        (t : Option TagSource) (info : InfoObj),
        (build_case sha fn sts (.ok ⟨t, some info⟩)).expectedCoreInfo =
          ⟨safe_number (getattrD info "length"), safe_number (getattrD info "bitrate"),
           safe_number (getattrD info "sample_rate"), safe_number (getattrD info "channels"),
           safe_number (getattrD info "bits_per_sample")⟩) := by
  refine ⟨fun b => rfl, ?_, ?_, ?_, fun sha fn sts t info => rfl⟩
  · intro f q hf
    simp only [safe_number]
    rw [hf]
  · intro s f q hf hlt
    simp only [safe_number]
    rw [hf]
    show (if |q - (truncQ q : ℚ)| < nearTol then some (SNResult.intR (truncQ q))
      else some (SNResult.floatR f)) = some (SNResult.intR (truncQ q))
    rw [if_pos hlt]
  · intro s f q hf hlt
    simp only [safe_number]
    rw [hf]
    show (if |q - (truncQ q : ℚ)| < nearTol then some (SNResult.intR (truncQ q))
      else some (SNResult.floatR f)) = some (SNResult.floatR f)
    rw [if_neg hlt]

/-- C10 (witness): the snapping branch instantiated at the conversion
result 2.0, and the bool branch at True. -/
theorem C10_witness :
    safe_number (.vOther "2.0" (some twoFloat)) = some (.intR (truncQ 2)) ∧
    safe_number (.vBool true) = some (.boolR true) :=
  ⟨C10_safe_number_dispatch.2.2.1 "2.0" twoFloat 2 rfl (by simp [truncQ, nearTol]),
   C10_safe_number_dispatch.1 true⟩

end AudioGolden
